import Mathlib

/-!
Verification of the mpd-mqtt-yag gateway (src/mpd-mqtt-yag.py) against its
natural-language specification.  The Python source is shallowly embedded:
`ObservedDict` becomes an insertion-ordered association list with a separate
pending-changes map, the MPD client pool's `acquire` becomes a recursion on
the remaining retry budget, and the handlers become pure functions from
snapshots and change sets to lists of emitted events or backend calls.
-/

namespace MpdMqttYag

/-- A scalar value stored in a snapshot.  MPD attribute values arrive as
strings; integers appear through the volume command path.  Python truthiness
on these values is captured by `Value.falsy`. -/
inductive Value where
  | str (s : String)
  | int (n : Int)
  deriving Repr, DecidableEq

/-- Python truthiness: `not v` holds exactly for the empty string and zero
(the `None` case is handled by `Option` at use sites). -/
def Value.falsy : Value → Bool
  | .str s => s = ""
  | .int n => n = 0

/-! ### Python `dict` semantics as insertion-ordered association lists

`ObservedDict` subclasses `dict`; a faithful model must keep insertion order
because `emit_song` iterates `self.song.items()`.  `dictSet` updates an
existing key in place and appends a new key at the end, exactly as a Python
`dict.__setitem__` does. -/

/-- Membership test of a key, `item in d` in Python. -/
def dictHasKey (l : List (String × Value)) (k : String) : Bool :=
  l.any (fun p => p.1 == k)

/-- Lookup, `d[item]` returning `none` instead of raising `KeyError`. -/
def dictGet? (l : List (String × Value)) (k : String) : Option Value :=
  (l.find? (fun p => p.1 == k)).map (·.2)

/-- `d[item] = value`: overwrite in place when the key exists, append
otherwise (Python dicts preserve insertion order). -/
def dictSet (l : List (String × Value)) (k : String) (v : Value) :
    List (String × Value) :=
  if dictHasKey l k then
    l.map (fun p => if p.1 == k then (k, v) else p)
  else
    l ++ [(k, v)]

/-- `ObservedDict` from the source: a dict plus a `changes` dict holding the
writes judged different since the last `get_changes`. -/
structure ObservedDict where
  entries : List (String × Value)
  changes : List (String × Value)
  deriving Repr, DecidableEq

/-- A fresh `ObservedDict()` (no kwargs). -/
def ObservedDict.empty : ObservedDict := ⟨[], []⟩

/-- The source's change test for a single write, line 49:
`oldval = self[item] if item in self else None`, then
`if not oldval or oldval != value`. -/
def judgedChanged : Option Value → Value → Bool
  | none, _ => true
  | some o, v => o.falsy || o != v

/-- `ObservedDict.__setitem__` (source lines 46-52): record the write in
`changes` when `judgedChanged`, then store it. -/
def ObservedDict.setitem (d : ObservedDict) (k : String) (v : Value) :
    ObservedDict :=
  if judgedChanged (dictGet? d.entries k) v then
    { entries := dictSet d.entries k v, changes := dictSet d.changes k v }
  else
    { entries := dictSet d.entries k v, changes := d.changes }

/-- `ObservedDict.get_changes` (source lines 54-57): return the pending
changes and reset them. -/
def ObservedDict.get_changes (d : ObservedDict) :
    List (String × Value) × ObservedDict :=
  (d.changes, { entries := d.entries, changes := [] })

/-- Apply a sequence of writes, left to right. -/
def writeAll (d : ObservedDict) : List (String × Value) → ObservedDict
  | [] => d
  | (k, v) :: ws => writeAll (d.setitem k v) ws

/-- Spec-side characterisation for C1: a key had a triggering write in the
sequence, i.e. some write to it was judged different from the value stored
immediately before that write. -/
def triggered (entries : List (String × Value)) :
    List (String × Value) → String → Bool
  | [], _ => false
  | (k, v) :: ws, q =>
    ((q == k) && judgedChanged (dictGet? entries k) v)
      || triggered (dictSet entries k v) ws q

/-! ### Association-list lemmas -/

theorem overwrite_key_pred (k q : String) (v : Value) (hqk : q ≠ k) :
    ((fun p => p.1 == q) ∘ fun p : String × Value =>
      if p.1 == k then (k, v) else p) = fun p => p.1 == q := by
  funext p
  rcases eq_or_ne p.1 k with hp | hp
  · have h1 : (p.1 == k) = true := by simp [hp]
    have h2 : (p.1 == q) = false := by
      simp only [beq_eq_false_iff_ne, ne_eq, hp]
      exact fun h => hqk (Eq.symm h)
    have h3 : ((k, v).1 == q) = false := by
      simp only [beq_eq_false_iff_ne, ne_eq]
      exact fun h => hqk (Eq.symm h)
    simp [Function.comp, h1, h2, h3]
  · have h1 : (p.1 == k) = false := by simp [hp]
    simp [Function.comp, h1]

theorem overwrite_key_pred_self (k : String) (v : Value) :
    ((fun p => p.1 == k) ∘ fun p : String × Value =>
      if p.1 == k then (k, v) else p) = fun p => p.1 == k := by
  funext p
  rcases eq_or_ne p.1 k with hp | hp
  · have h1 : (p.1 == k) = true := by simp [hp]
    simp [Function.comp, h1, hp]
  · have h1 : (p.1 == k) = false := by simp [hp]
    simp [Function.comp, h1]

theorem dictHasKey_dictSet (l : List (String × Value)) (k : String) (v : Value)
    (q : String) :
    dictHasKey (dictSet l k v) q = ((q == k) || dictHasKey l q) := by
  unfold dictSet
  by_cases hk : dictHasKey l k
  · rw [if_pos hk]
    unfold dictHasKey
    rw [List.any_map]
    by_cases hqk : q = k
    · subst hqk
      rw [overwrite_key_pred_self]
      have hany : l.any (fun p => p.1 == q) = true := by
        simpa [dictHasKey] using hk
      simp [hany]
    · rw [overwrite_key_pred k q v hqk]
      have hqk2 : (q == k) = false := by
        simp only [beq_eq_false_iff_ne, ne_eq]; exact hqk
      simp [hqk2]
  · rw [if_neg hk]
    unfold dictHasKey
    rw [List.any_append]
    by_cases hqk : q = k
    · subst hqk
      simp
    · have hkq : ((k, v).1 == q) = false := by
        simp only [beq_eq_false_iff_ne, ne_eq]
        exact fun h => hqk (Eq.symm h)
      have hqk2 : (q == k) = false := by
        simp only [beq_eq_false_iff_ne, ne_eq]; exact hqk
      simp [hkq, hqk2]

theorem dictGet?_dictSet (l : List (String × Value)) (k : String) (v : Value)
    (q : String) :
    dictGet? (dictSet l k v) q = if q = k then some v else dictGet? l q := by
  unfold dictSet
  by_cases hk : dictHasKey l k
  · rw [if_pos hk]
    unfold dictGet?
    rw [List.find?_map]
    by_cases hqk : q = k
    · subst hqk
      rw [overwrite_key_pred_self]
      have hsome : (l.find? (fun p => p.1 == q)).isSome := by
        rw [List.find?_isSome]
        simpa [dictHasKey, List.any_eq_true] using hk
      obtain ⟨p₀, hp₀⟩ := Option.isSome_iff_exists.1 hsome
      have hkey : p₀.1 = q := by
        have h := List.find?_some hp₀
        simpa using h
      rw [hp₀, if_pos rfl]
      simp [hkey]
    · rw [overwrite_key_pred k q v hqk]
      cases hfind : l.find? (fun p => p.1 == q) with
      | none => simp [hqk]
      | some p₀ =>
        have hkey : p₀.1 = q := by
          have h := List.find?_some hfind
          simpa using h
        simp [hqk, hkey]
  · rw [if_neg hk]
    unfold dictGet?
    rw [List.find?_append]
    have hnone : l.find? (fun p => p.1 == k) = none := by
      rw [List.find?_eq_none]
      intro p hp hpq
      refine absurd ?_ hk
      simp only [dictHasKey, List.any_eq_true]
      exact ⟨p, hp, hpq⟩
    by_cases hqk : q = k
    · subst hqk
      have hsing : List.find? (fun p => p.1 == q) [(q, v)] = some (q, v) :=
        List.find?_cons_of_pos [] (by simp)
      rw [hnone, Option.none_or, hsing]
      simp
    · have hkq : ¬ (((k, v) : String × Value).1 == q) = true := by
        simp only [beq_iff_eq]
        exact fun h => hqk (Eq.symm h)
      have hsing : List.find? (fun p => p.1 == q) [(k, v)] = none := by
        have h : (k == q) = false := by
          simp only [beq_eq_false_iff_ne, ne_eq]
          exact fun h => hqk (Eq.symm h)
        simp [List.find?, h]
      cases hfind : l.find? (fun p => p.1 == q) with
      | some p₀ =>
        rw [if_neg hqk]
        rfl
      | none =>
        rw [Option.none_or, hsing, if_neg hqk]

theorem dictHasKey_changes_writeAll (ws : List (String × Value)) :
    ∀ (d : ObservedDict) (q : String),
    dictHasKey (writeAll d ws).changes q
      = (dictHasKey d.changes q || triggered d.entries ws q) := by
  induction ws with
  | nil =>
    intro d q
    simp [writeAll, triggered]
  | cons w ws ih =>
    intro d q
    obtain ⟨k, v⟩ := w
    simp only [writeAll, triggered]
    by_cases hc : judgedChanged (dictGet? d.entries k) v = true
    · have hset : d.setitem k v =
          { entries := dictSet d.entries k v, changes := dictSet d.changes k v } := by
        unfold ObservedDict.setitem
        rw [if_pos hc]
      rw [hset, ih, hc]
      show (dictHasKey (dictSet d.changes k v) q || _) = _
      rw [dictHasKey_dictSet]
      cases q == k <;> cases dictHasKey d.changes q <;>
        cases triggered (dictSet d.entries k v) ws q <;> simp
    · have hcf : judgedChanged (dictGet? d.entries k) v = false := by
        simpa using hc
      have hset : d.setitem k v =
          { entries := dictSet d.entries k v, changes := d.changes } := by
        unfold ObservedDict.setitem
        rw [if_neg hc]
      rw [hset, ih, hcf]
      simp

theorem falsy_eq_zero_or_empty (o : Value) :
    o.falsy = ((o == Value.int 0) || (o == Value.str "")) := by
  cases o with
  | str s =>
    show decide (s = "")
      = (decide (Value.str s = Value.int 0) || decide (Value.str s = Value.str ""))
    simp
  | int n =>
    show decide (n = 0)
      = (decide (Value.int n = Value.int 0) || decide (Value.int n = Value.str ""))
    simp

/-- C1: for every sequence of writes applied to a freshly drained snapshot,
`get_changes` returns exactly the keys that had a write judged different from
the value stored immediately before that write, and an immediately following
second drain with no intervening writes returns the empty set. -/
theorem claim_C1_drain_changes_exact (d : ObservedDict)
    (ws : List (String × Value)) (q : String) (h : d.changes = []) :
    (dictHasKey ((writeAll d ws).get_changes).1 q = triggered d.entries ws q)
    ∧ (((writeAll d ws).get_changes).2.get_changes).1 = [] := by
  constructor
  · show dictHasKey (writeAll d ws).changes q = _
    rw [dictHasKey_changes_writeAll ws d q, h]
    simp [dictHasKey]
  · rfl

theorem claim_C1_witness :
    (ObservedDict.empty.changes = []) ∧
    ((dictHasKey ((writeAll ObservedDict.empty
        [("state", Value.str "play"), ("state", Value.str "play")]).get_changes).1
        "state"
      = triggered ObservedDict.empty.entries
        [("state", Value.str "play"), ("state", Value.str "play")] "state")
    ∧ (((writeAll ObservedDict.empty
        [("state", Value.str "play"), ("state", Value.str "play")]).get_changes).2.get_changes).1
        = []) :=
  ⟨rfl, claim_C1_drain_changes_exact ObservedDict.empty
    [("state", Value.str "play"), ("state", Value.str "play")] "state" rfl⟩

/-- C3: a single write to a drained snapshot records the key in the pending
changes iff the old stored value is zero, the empty string, or absent, or
differs from the new value; in particular a falsy old value is always
recorded as changed, whatever the new value is. -/
theorem claim_C3_write_records_iff (d : ObservedDict) (k : String) (v : Value)
    (h : d.changes = []) :
    (dictHasKey (d.setitem k v).changes k =
      (match dictGet? d.entries k with
       | none => true
       | some o => (o == Value.int 0) || (o == Value.str "") || (o != v)))
    ∧ (∀ o, dictGet? d.entries k = some o → o.falsy = true →
        dictHasKey (d.setitem k v).changes k = true) := by
  have hDC : dictHasKey (d.setitem k v).changes k
      = judgedChanged (dictGet? d.entries k) v := by
    unfold ObservedDict.setitem
    by_cases hc : judgedChanged (dictGet? d.entries k) v = true
    · rw [if_pos hc, hc]
      show dictHasKey (dictSet d.changes k v) k = true
      rw [dictHasKey_dictSet]
      simp
    · have hcf : judgedChanged (dictGet? d.entries k) v = false := by
        simpa using hc
      rw [if_neg hc, hcf]
      show dictHasKey d.changes k = false
      rw [h]
      simp [dictHasKey]
  constructor
  · rw [hDC]
    cases hget : dictGet? d.entries k with
    | none => simp [judgedChanged]
    | some o =>
      simp only [judgedChanged, falsy_eq_zero_or_empty, Bool.or_assoc]
  · intro o hget hf
    rw [hDC, hget]
    simp [judgedChanged, hf]

theorem claim_C3_witness :
    ((⟨[("volume", Value.int 0)], []⟩ : ObservedDict).changes = []) ∧
    dictHasKey
      ((⟨[("volume", Value.int 0)], []⟩ : ObservedDict).setitem "volume"
        (Value.int 0)).changes "volume" = true :=
  ⟨rfl,
    (claim_C3_write_records_iff ⟨[("volume", Value.int 0)], []⟩ "volume"
      (Value.int 0) rfl).2 (Value.int 0) (by decide) (by decide)⟩

/-! ### MpdClientPool.acquire (source lines 79-113)

The loop is driven by two oracles: `createOk n` tells whether the n-th
attempt's `_create_client()` (connect) succeeds, `pingOk n` whether the n-th
attempt's `client.ping()` succeeds.  Clients in the reuse deque are opaque
(`Unit`); `self.clients.pop()` pops one.  The result records the number of
attempts made and the number of `time.sleep(5)` calls executed.

Fidelity notes, traced from the source:
- the `while not client and tries` guard means the loop body only ever runs
  with `tries ≠ 0`, so the `if tries == 0: raise` inside the handler can
  only yield `reraised` under `tries = 0` - a contradiction kept verbatim
  in the embedding below;
- when `_create_client()` itself raises, `client` is still `None`, and the
  handler's `client.disconnect()` raises `AttributeError` (`None` has no
  `disconnect`), which the `except mpd.ConnectionError` clause does not
  catch, so it escapes `acquire` - modelled as `raisedAttrError`;
- when the loop exits with `tries = 0`, `acquire` falls through and
  `return client` returns `None` - modelled as `returnedNone`. -/

/-- The ways `MpdClientPool.acquire` can finish, with attempt/sleep counters. -/
inductive AcquireResult where
  | got (attempts sleeps : Nat)
  | returnedNone (attempts sleeps : Nat)
  | raisedAttrError (attempts sleeps : Nat)
  | reraised (attempts sleeps : Nat)
  deriving Repr, DecidableEq

/-- One `while not client and tries` loop of `acquire`, lines 85-109. -/
def acquire_loop (createOk pingOk : Nat → Bool) (pool : List Unit)
    (tries attempt sleeps : Nat) : AcquireResult :=
  if hT : tries = 0 then .returnedNone attempt sleeps
  else
    if hP : pool ≠ [] then
      if pingOk attempt then .got (attempt + 1) sleeps
      else
        if pool.drop 1 = [] then
          if tries = 0 then .reraised (attempt + 1) sleeps
          else acquire_loop createOk pingOk (pool.drop 1) (tries - 1)
            (attempt + 1) (sleeps + 1)
        else acquire_loop createOk pingOk (pool.drop 1) tries (attempt + 1)
          sleeps
    else
      if createOk attempt then
        if pingOk attempt then .got (attempt + 1) sleeps
        else
          if tries = 0 then .reraised (attempt + 1) sleeps
          else acquire_loop createOk pingOk pool (tries - 1) (attempt + 1)
            (sleeps + 1)
      else .raisedAttrError (attempt + 1) sleeps
termination_by tries + pool.length
decreasing_by
  · have h1 : 0 < pool.length := List.length_pos.mpr hP
    simp only [List.length_drop]
    omega
  · have h1 : 0 < pool.length := List.length_pos.mpr hP
    simp only [List.length_drop]
    omega
  · omega

/-- `acquire` with the source's constants: `tries = 10`. -/
def acquire (createOk pingOk : Nat → Bool) (pool : List Unit) : AcquireResult :=
  acquire_loop createOk pingOk pool 10 0 0

/-- Each sleep between attempts is `time.sleep(5)` seconds (line 83/109). -/
def acquireSleepSeconds : Nat := 5

/-- The `raise` on line 107 is dead code: `acquire` never re-raises, for any
backend behaviour and any pool/counter state. -/
theorem acquire_loop_ne_reraised : ∀ (m : Nat) (createOk pingOk : Nat → Bool)
    (pool : List Unit) (tries attempt sleeps a s : Nat),
    tries + pool.length ≤ m →
    acquire_loop createOk pingOk pool tries attempt sleeps
      ≠ AcquireResult.reraised a s := by
  intro m
  induction m with
  | zero =>
    intro createOk pingOk pool tries attempt sleeps a s hm
    have hT : tries = 0 := by omega
    rw [acquire_loop]
    simp [hT]
  | succ m ih =>
    intro createOk pingOk pool tries attempt sleeps a s hm
    rw [acquire_loop]
    split
    · simp
    · rename_i hT
      split
      · rename_i hP
        have hlen : 0 < pool.length := List.length_pos.mpr hP
        split
        · simp
        · split
          · apply ih
            simp only [List.length_drop]
            omega
          · apply ih
            simp only [List.length_drop]
            omega
      · rename_i hP
        split
        · split
          · simp
          · apply ih
            have hpl : pool.length = 0 := by
              simp only [ne_eq, not_not] at hP
              simp [hP]
            omega
        · simp

/-- C2: against a backend whose liveness probe always fails and an empty
pool, `acquire` makes its ten attempts, sleeping the five-second delay after
each, and then falls out of the loop and RETURNS `None` - it does not
re-raise the last error as the specification demands; and if the connection
attempt itself always fails, the first handler pass dies with an
`AttributeError` from `None.disconnect()` instead.  Together with
`acquire_loop_ne_reraised` this shows the claimed re-raise never happens. -/
theorem claim_C2_exhaustion_returns_none :
    (acquire (fun _ => true) (fun _ => false) [] = .returnedNone 10 10)
    ∧ (acquire (fun _ => false) (fun _ => false) [] = .raisedAttrError 1 0) := by
  constructor <;> simp [acquire, acquire_loop]

/-! ### MpdHandler: emit operations and the change dispatcher
(source lines 121-286) -/

/-- Which of the six callbacks are registered (`set_callback`, lines 137-149).
`MqttHandler.__init__` registers all six. -/
structure Callbacks where
  song_cb : Bool
  play_cb : Bool
  elapsed_cb : Bool
  volume_cb : Bool
  repeat_random_cb : Bool
  single_cb : Bool
  deriving Repr, DecidableEq

/-- The wiring used by `MqttHandler.__init__` (lines 295-300): every callback
registered. -/
def allCallbacks : Callbacks := ⟨true, true, true, true, true, true⟩

/-- The semantic events the dispatcher can emit, one per callback invocation.
`SongChanged`'s payload is the restricted item dict, in iteration order. -/
inductive Event where
  | SongChanged (payload : List (String × Value))
  | PlaybackStateChanged (v : Value)
  | ElapsedChanged (v : Value)
  | VolumeChanged (v : Value)
  | PlayModeChanged (rep rnd : Value)
  | SingleModeChanged (v : Value)
  deriving Repr, DecidableEq

/-- The whitelist in `emit_song` (line 202); note `time`, not `duration`. -/
def songKeys : List String :=
  ["album", "artist", "file", "time", "title", "track"]

/-- `MpdHandler.emit_song` (lines 198-205): returns early without a callback;
otherwise the callback receives the item filtered to `songKeys` in dict
iteration order.  Missing attributes are simply absent; no lookup occurs. -/
def emit_song (cbs : Callbacks) (song : ObservedDict) : List Event :=
  if cbs.song_cb then
    [.SongChanged (song.entries.filter (fun p => songKeys.contains p.1))]
  else []

/-- `MpdHandler.emit_state` (lines 207-210): `self.status['state']` is read
first and raises `KeyError` when absent, before the callback check. -/
def emit_state (cbs : Callbacks) (status : ObservedDict) :
    Except String (List Event) :=
  match dictGet? status.entries "state" with
  | none => .error "KeyError: state"
  | some v => .ok (if cbs.play_cb then [.PlaybackStateChanged v] else [])

/-- `MpdHandler.emit_elapsed` (lines 212-215). -/
def emit_elapsed (cbs : Callbacks) (status : ObservedDict) :
    Except String (List Event) :=
  match dictGet? status.entries "elapsed" with
  | none => .error "KeyError: elapsed"
  | some v => .ok (if cbs.elapsed_cb then [.ElapsedChanged v] else [])

/-- `MpdHandler.emit_volume` (lines 217-220). -/
def emit_volume (cbs : Callbacks) (status : ObservedDict) :
    Except String (List Event) :=
  match dictGet? status.entries "volume" with
  | none => .error "KeyError: volume"
  | some v => .ok (if cbs.volume_cb then [.VolumeChanged v] else [])

/-- `MpdHandler.emit_random_repeat` (lines 222-226): reads `repeat` then
`random`, each raising `KeyError` when absent. -/
def emit_random_repeat (cbs : Callbacks) (status : ObservedDict) :
    Except String (List Event) :=
  match dictGet? status.entries "repeat" with
  | none => .error "KeyError: repeat"
  | some rep =>
    match dictGet? status.entries "random" with
    | none => .error "KeyError: random"
    | some rnd =>
      .ok (if cbs.repeat_random_cb then [.PlayModeChanged rep rnd] else [])

/-- `MpdHandler.emit_single` (lines 228-231). -/
def emit_single (cbs : Callbacks) (status : ObservedDict) :
    Except String (List Event) :=
  match dictGet? status.entries "single" with
  | none => .error "KeyError: single"
  | some v => .ok (if cbs.single_cb then [.SingleModeChanged v] else [])

/-- `MpdHandler._dispatch_change_events` (lines 269-286).  The change sets
are the key sets of the dicts returned by `get_changes`; a `KeyError` from
any emit propagates and aborts the remaining dispatch steps. -/
def dispatch_change_events (cbs : Callbacks) (status song : ObservedDict)
    (status_changes song_changes : List String) :
    Except String (List Event) :=
  let e1 := if song_changes.any (fun e => ["artist", "title", "album"].contains e)
            then emit_song cbs song else []
  match (if status_changes.contains "state"
         then emit_state cbs status else .ok []) with
  | .error err => .error err
  | .ok e2 =>
  match (if status_changes.contains "elapsed"
         then emit_elapsed cbs status else .ok []) with
  | .error err => .error err
  | .ok e3 =>
  match (if status_changes.contains "volume"
         then emit_volume cbs status else .ok []) with
  | .error err => .error err
  | .ok e4 =>
  match (if status_changes.any (fun e => ["repeat", "random"].contains e)
         then emit_random_repeat cbs status else .ok []) with
  | .error err => .error err
  | .ok e5 =>
  match (if status_changes.contains "single"
         then emit_single cbs status else .ok []) with
  | .error err => .error err
  | .ok e6 => .ok (e1 ++ e2 ++ e3 ++ e4 ++ e5 ++ e6)

/-- Recogniser for `SongChanged` events. -/
def isSongChanged : Event → Bool
  | .SongChanged _ => true
  | _ => false

/-! ### Command executor (source lines 151-196) -/

/-- Pool and backend interactions a command performs, in order. -/
inductive MpdCall where
  | acquireClient
  | dropClient
  | single (n : Nat)
  | play
  | setvol (v : Int)
  deriving Repr, DecidableEq

/-- `MpdHandler.cmd_play` (lines 151-155): acquire, `single(0)`, `play()`,
drop. -/
def cmd_play : List MpdCall :=
  [.acquireClient, .single 0, .play, .dropClient]

/-! Python `int(str)` semantics, needed by `cmd_volume`: optional surrounding
whitespace, an optional single sign, then decimal digits where a single
underscore may separate two digits; anything else raises `ValueError`. -/

/-- ASCII decimal digit. -/
def isPyDigit (c : Char) : Bool := '0' ≤ c && c ≤ '9'

/-- Numeric value of a digit character. -/
def pyDigitVal (c : Char) : Nat := c.toNat - 48

/-- Digit-run parser with Python's underscore-between-digits rule. -/
def parseDigitsGo : Nat → List Char → Option Nat
  | acc, [] => some acc
  | acc, c :: cs =>
    if isPyDigit c then parseDigitsGo (acc * 10 + pyDigitVal c) cs
    else if c = '_' then
      match cs with
      | [] => none
      | d :: cs' =>
        if isPyDigit d then parseDigitsGo (acc * 10 + pyDigitVal d) cs'
        else none
    else none

/-- A nonempty digit run (with optional inner underscores). -/
def parseDigits : List Char → Option Nat
  | [] => none
  | c :: cs => if isPyDigit c then parseDigitsGo (pyDigitVal c) cs else none

/-- Python `str.strip()` whitespace characters (the ASCII ones). -/
def isPySpace (c : Char) : Bool :=
  c = ' ' || c = '\t' || c = '\n' || c = '\r' || c = '\x0b' || c = '\x0c'

/-- `int(text)`: `none` models the `ValueError` path. -/
def pyInt (s : String) : Option Int :=
  let cs := ((s.data.dropWhile isPySpace).reverse.dropWhile isPySpace).reverse
  match cs with
  | '+' :: rest => (parseDigits rest).map (fun n => (n : Int))
  | '-' :: rest => (parseDigits rest).map (fun n => -(n : Int))
  | rest => (parseDigits rest).map (fun n => (n : Int))

/-- `MpdHandler.cmd_volume` (lines 177-185): `int(volume)` runs before any
pool use; a `ValueError` is printed and nothing else happens, otherwise
acquire, `setvol(vol)`, drop. -/
def cmd_volume (volume : String) : List MpdCall :=
  match pyInt volume with
  | some v => [.acquireClient, .setvol v, .dropClient]
  | none => []

/-- Recogniser for backend `setvol` calls. -/
def isSetvol : MpdCall → Bool
  | .setvol _ => true
  | _ => false

/-! ### MqttHandler topic rendering (source lines 325-327) -/

/-- `MqttHandler._render_topic`: Python's `str.endswith`/`str.startswith` on
the character sequences, then plain concatenation of base, delimiter and
relative part. -/
def render_topic (topic_base rel : String) : String :=
  let delim := if "/".data.isSuffixOf topic_base.data
                  || "/".data.isPrefixOf rel.data then "" else "/"
  topic_base ++ delim ++ rel

/-! ### The watcher loop (source lines 233-244)

`watch` is `while True`: each iteration runs `_check_updates` (the whole
REFRESHING pass: status query, item query, two drains, dispatch), then
acquires a client, calls `idle()` inside `try`/`except Exception` (a raised
error is only printed), and drops the client.  Nothing breaks the loop, so
its behaviour is the trace of actions per iteration, driven by an oracle for
each iteration's `idle()` outcome. -/

/-- Observable actions of one `watch` iteration. -/
inductive WatchAct where
  | refreshPass
  | acquirePool
  | idleOk (subs : List String)
  | idleErr
  | dropPool
  deriving Repr, DecidableEq

/-- The actions of iteration `n` of `watch`, given the oracle for `idle()`
outcomes: refresh, acquire, the wait (which may raise - caught and logged),
drop. -/
def watchIter (idleRes : Nat → Except Unit (List String)) (n : Nat) :
    List WatchAct :=
  [.refreshPass, .acquirePool] ++
    (match idleRes n with
     | .ok subs => [.idleOk subs]
     | .error _ => [.idleErr]) ++ [.dropPool]

/-- The action trace of the first `n` iterations of `watch`. -/
def watchTrace (idleRes : Nat → Except Unit (List String)) : Nat → List WatchAct
  | 0 => []
  | n + 1 => watchTrace idleRes n ++ watchIter idleRes n

/-! ### Claims C6, C7, C9, C10 -/

/-- C6: `cmd_volume` with an unparsable payload performs no backend call at
all (the pool is never touched), and with a parsable payload performs
exactly one `setvol` with the parsed value, wrapped in one acquire/drop. -/
theorem claim_C6_volume_parse (text : String) :
    (pyInt text = none → cmd_volume text = [])
    ∧ (∀ v, pyInt text = some v →
        cmd_volume text = [.acquireClient, .setvol v, .dropClient]
        ∧ (cmd_volume text).filter isSetvol = [.setvol v]) := by
  refine ⟨?_, ?_⟩
  · intro h
    unfold cmd_volume
    rw [h]
  · intro v h
    unfold cmd_volume
    rw [h]
    exact ⟨rfl, rfl⟩

theorem claim_C6_witness :
    (pyInt "abc" = none ∧ cmd_volume "abc" = [])
    ∧ (pyInt "57" = some 57
       ∧ (cmd_volume "57" = [.acquireClient, .setvol 57, .dropClient]
          ∧ (cmd_volume "57").filter isSetvol = [.setvol 57])) :=
  ⟨⟨by decide, (claim_C6_volume_parse "abc").1 (by decide)⟩,
   ⟨by decide, (claim_C6_volume_parse "57").2 57 (by decide)⟩⟩

/-- C7 counterexample: when the base ends with the separator AND the
relative part starts with one, the joined topic DOES contain a double
separator at the join point - the claim's "never" clause is false. -/
theorem claim_C7_counterexample :
    render_topic "MPD/" "/player" = "MPD//player"
    ∧ (render_topic "MPD/" "/player").data
        = ['M', 'P', 'D', '/', '/', 'p', 'l', 'a', 'y', 'e', 'r'] := by
  exact ⟨by decide, by decide⟩

/-- C7 amended: exactly one separator is inserted when neither side supplies
one, and none is inserted when either side does; but when BOTH the base ends
with the separator and the relative part starts with one, the join point
carries a double separator. -/
theorem claim_C7_join_amended (b r : String)
    (hs : "/".data.isSuffixOf b.data = true)
    (hp : "/".data.isPrefixOf r.data = true) :
    (∀ b' r' : String, ¬ "/".data.isSuffixOf b'.data
        → ¬ "/".data.isPrefixOf r'.data
        → render_topic b' r' = b' ++ "/" ++ r')
    ∧ (∀ b' r' : String, ("/".data.isSuffixOf b'.data
        ∨ "/".data.isPrefixOf r'.data)
        → render_topic b' r' = b' ++ r')
    ∧ (∃ l1 l2, (render_topic b r).data = l1 ++ '/' :: '/' :: l2) := by
  refine ⟨?_, ?_, ?_⟩
  · intro b' r' h1 h2
    unfold render_topic
    have hc : ("/".data.isSuffixOf b'.data || "/".data.isPrefixOf r'.data)
        = false := by
      simp only [Bool.or_eq_false_iff]
      constructor
      · exact Bool.not_eq_true _ ▸ (by simpa using h1)
      · exact Bool.not_eq_true _ ▸ (by simpa using h2)
    rw [hc]
    simp
  · intro b' r' h
    unfold render_topic
    have hc : ("/".data.isSuffixOf b'.data || "/".data.isPrefixOf r'.data)
        = true := by
      rcases h with h | h <;> simp [h]
    rw [hc]
    simp
  · have hj : render_topic b r = b ++ r := by
      unfold render_topic
      rw [hs]
      simp
    obtain ⟨l1, hl1⟩ := List.isSuffixOf_iff_suffix.mp hs
    obtain ⟨l2, hl2⟩ := List.isPrefixOf_iff_prefix.mp hp
    refine ⟨l1, l2, ?_⟩
    rw [hj, String.data_append, ← hl1, ← hl2]
    simp

theorem claim_C7_witness :
    (render_topic "MPD" "player/state" = "MPD" ++ "/" ++ "player/state")
    ∧ (render_topic "MPD/" "player/state" = "MPD/" ++ "player/state")
    ∧ (∃ l1 l2, (render_topic "a/" "/b").data = l1 ++ '/' :: '/' :: l2) :=
  ⟨(claim_C7_join_amended "a/" "/b" (by decide) (by decide)).1
      "MPD" "player/state" (by decide) (by decide),
   (claim_C7_join_amended "a/" "/b" (by decide) (by decide)).2.1
      "MPD/" "player/state" (Or.inl (by decide)),
   (claim_C7_join_amended "a/" "/b" (by decide) (by decide)).2.2⟩

/-- C9: a refresh whose status change set is exactly `state` (with stored
value `play`) and whose item change set is empty emits exactly the one event
`PlaybackStateChanged "play"`. -/
theorem claim_C9_state_play_only (cbs : Callbacks) (status song : ObservedDict)
    (hplay : cbs.play_cb = true)
    (hstate : dictGet? status.entries "state" = some (Value.str "play")) :
    dispatch_change_events cbs status song ["state"] []
      = .ok [Event.PlaybackStateChanged (Value.str "play")] := by
  unfold dispatch_change_events emit_state
  rw [hstate]
  simp [hplay]

theorem claim_C9_witness :
    dispatch_change_events allCallbacks
      ⟨[("state", Value.str "play"), ("volume", Value.str "50")], []⟩
      ObservedDict.empty ["state"] []
      = .ok [Event.PlaybackStateChanged (Value.str "play")] :=
  claim_C9_state_play_only allCallbacks
    ⟨[("state", Value.str "play"), ("volume", Value.str "50")], []⟩
    ObservedDict.empty rfl (by decide)

/-- C10: `cmd_play` disables single (stop-after-current) mode with
`single(0)` before issuing `play()`, on every invocation. -/
theorem claim_C10_play_clears_single :
    cmd_play = [.acquireClient, .single 0, .play, .dropClient]
    ∧ cmd_play.indexOf (MpdCall.single 0) < cmd_play.indexOf MpdCall.play := by
  exact ⟨rfl, by decide⟩

/-! ### Claim C4: the SongChanged trigger and payload -/

theorem no_song_in_state (cbs : Callbacks) (status : ObservedDict) (b : Bool)
    (l : List Event)
    (h : (if b then emit_state cbs status else Except.ok []) = .ok l) :
    l.filter isSongChanged = [] := by
  cases b with
  | false =>
    simp only [if_neg Bool.false_ne_true] at h
    cases h
    rfl
  | true =>
    simp only [if_pos rfl] at h
    unfold emit_state at h
    cases hg : dictGet? status.entries "state" with
    | none => rw [hg] at h; cases h
    | some v =>
      rw [hg] at h
      cases h
      cases cbs.play_cb <;> rfl

theorem no_song_in_elapsed (cbs : Callbacks) (status : ObservedDict) (b : Bool)
    (l : List Event)
    (h : (if b then emit_elapsed cbs status else Except.ok []) = .ok l) :
    l.filter isSongChanged = [] := by
  cases b with
  | false =>
    simp only [if_neg Bool.false_ne_true] at h
    cases h
    rfl
  | true =>
    simp only [if_pos rfl] at h
    unfold emit_elapsed at h
    cases hg : dictGet? status.entries "elapsed" with
    | none => rw [hg] at h; cases h
    | some v =>
      rw [hg] at h
      cases h
      cases cbs.elapsed_cb <;> rfl

theorem no_song_in_volume (cbs : Callbacks) (status : ObservedDict) (b : Bool)
    (l : List Event)
    (h : (if b then emit_volume cbs status else Except.ok []) = .ok l) :
    l.filter isSongChanged = [] := by
  cases b with
  | false =>
    simp only [if_neg Bool.false_ne_true] at h
    cases h
    rfl
  | true =>
    simp only [if_pos rfl] at h
    unfold emit_volume at h
    cases hg : dictGet? status.entries "volume" with
    | none => rw [hg] at h; cases h
    | some v =>
      rw [hg] at h
      cases h
      cases cbs.volume_cb <;> rfl

theorem no_song_in_random_repeat (cbs : Callbacks) (status : ObservedDict)
    (b : Bool) (l : List Event)
    (h : (if b then emit_random_repeat cbs status else Except.ok []) = .ok l) :
    l.filter isSongChanged = [] := by
  cases b with
  | false =>
    simp only [if_neg Bool.false_ne_true] at h
    cases h
    rfl
  | true =>
    simp only [if_pos rfl] at h
    unfold emit_random_repeat at h
    cases hg : dictGet? status.entries "repeat" with
    | none => rw [hg] at h; cases h
    | some rep =>
      rw [hg] at h
      cases hg2 : dictGet? status.entries "random" with
      | none => rw [hg2] at h; cases h
      | some rnd =>
        rw [hg2] at h
        cases h
        cases cbs.repeat_random_cb <;> rfl

theorem no_song_in_single (cbs : Callbacks) (status : ObservedDict) (b : Bool)
    (l : List Event)
    (h : (if b then emit_single cbs status else Except.ok []) = .ok l) :
    l.filter isSongChanged = [] := by
  cases b with
  | false =>
    simp only [if_neg Bool.false_ne_true] at h
    cases h
    rfl
  | true =>
    simp only [if_pos rfl] at h
    unfold emit_single at h
    cases hg : dictGet? status.entries "single" with
    | none => rw [hg] at h; cases h
    | some v =>
      rw [hg] at h
      cases h
      cases cbs.single_cb <;> rfl

/-- C4 counterexample: the whitelist in the source uses the key `time`, not
`duration`.  An item carrying `time` has `time` in the emitted payload even
though `time` is not in the claim's key set, and an item carrying `duration`
has `duration` filtered out even though the claim's key set includes it. -/
theorem claim_C4_counterexample :
    (dispatch_change_events allCallbacks ObservedDict.empty
        ⟨[("title", Value.str "X"), ("time", Value.str "180")], []⟩ [] ["title"]
      = .ok [Event.SongChanged
          [("title", Value.str "X"), ("time", Value.str "180")]])
    ∧ "time" ∉ ["album", "artist", "file", "duration", "title", "track"]
    ∧ "duration" ∈ ["album", "artist", "file", "duration", "title", "track"]
    ∧ (dispatch_change_events allCallbacks ObservedDict.empty
        ⟨[("title", Value.str "X"), ("duration", Value.str "180")], []⟩ []
        ["title"]
      = .ok [Event.SongChanged [("title", Value.str "X")]]) := by
  exact ⟨rfl, by decide, by decide, rfl⟩

/-- C4 amended: with the song callback registered, a successful dispatch
emits `SongChanged` exactly when the item change set touches title, artist
or album, exactly once, and its payload is the current item restricted to
the keys {album, artist, file, time, title, track} (`time`, not the claimed
`duration`). -/
theorem claim_C4_song_event_amended (cbs : Callbacks)
    (status song : ObservedDict) (sc gc : List String)
    (hcb : cbs.song_cb = true) (evs : List Event)
    (hok : dispatch_change_events cbs status song sc gc = .ok evs) :
    evs.filter isSongChanged
      = (if gc.any (fun e => ["artist", "title", "album"].contains e)
         then [Event.SongChanged
           (song.entries.filter (fun p => songKeys.contains p.1))]
         else [])
    ∧ (∀ p ∈ song.entries.filter (fun p => songKeys.contains p.1),
        p.1 ∈ songKeys) := by
  constructor
  · simp only [dispatch_change_events] at hok
    cases h2 : (if sc.contains "state"
        then emit_state cbs status else Except.ok ([] : List Event)) with
    | error err => rw [h2] at hok; cases hok
    | ok e2 =>
      rw [h2] at hok
      cases h3 : (if sc.contains "elapsed"
          then emit_elapsed cbs status else Except.ok ([] : List Event)) with
      | error err => rw [h3] at hok; cases hok
      | ok e3 =>
        rw [h3] at hok
        cases h4 : (if sc.contains "volume"
            then emit_volume cbs status else Except.ok ([] : List Event)) with
        | error err => rw [h4] at hok; cases hok
        | ok e4 =>
          rw [h4] at hok
          cases h5 : (if sc.any (fun e => ["repeat", "random"].contains e)
              then emit_random_repeat cbs status
              else Except.ok ([] : List Event)) with
          | error err => rw [h5] at hok; cases hok
          | ok e5 =>
            rw [h5] at hok
            cases h6 : (if sc.contains "single"
                then emit_single cbs status else Except.ok ([] : List Event)) with
            | error err => rw [h6] at hok; cases hok
            | ok e6 =>
              rw [h6] at hok
              cases hok
              rw [List.filter_append, List.filter_append, List.filter_append,
                List.filter_append, List.filter_append,
                no_song_in_state cbs status _ _ h2,
                no_song_in_elapsed cbs status _ _ h3,
                no_song_in_volume cbs status _ _ h4,
                no_song_in_random_repeat cbs status _ _ h5,
                no_song_in_single cbs status _ _ h6]
              simp only [List.append_nil]
              cases htr : gc.any (fun e => ["artist", "title", "album"].contains e) with
              | false => rfl
              | true =>
                simp only [if_pos rfl]
                unfold emit_song
                rw [hcb]
                simp [isSongChanged]
  · intro p hp
    rw [List.mem_filter] at hp
    simpa using hp.2

theorem claim_C4_witness :
    ([Event.SongChanged [("artist", Value.str "Y"), ("title", Value.str "X")]]
        |>.filter isSongChanged)
      = (if (["artist", "title"] : List String).any
            (fun e => ["artist", "title", "album"].contains e)
         then [Event.SongChanged
           ((⟨[("artist", Value.str "Y"), ("title", Value.str "X")], []⟩ :
              ObservedDict).entries.filter (fun p => songKeys.contains p.1))]
         else []) :=
  (claim_C4_song_event_amended allCallbacks ObservedDict.empty
    ⟨[("artist", Value.str "Y"), ("title", Value.str "X")], []⟩
    [] ["artist", "title"] rfl
    [Event.SongChanged [("artist", Value.str "Y"), ("title", Value.str "X")]]
    rfl).1

/-! ### Claim C8: emit operations on an absent attribute -/

/-- C8 counterexample: on a snapshot without `state`, `emit_state` raises a
`KeyError` - it is not the claimed error-free no-op. -/
theorem claim_C8_counterexample :
    emit_state allCallbacks ⟨[("volume", Value.str "50")], []⟩
      = .error "KeyError: state" := by
  rfl

/-- C8 amended: when the relevant attribute is absent from the snapshot,
`emit_song` merely omits it from the payload (no error, and no callback
argument mentions it), but `emit_state`, `emit_elapsed`, `emit_volume`,
`emit_random_repeat` and `emit_single` raise a `KeyError` instead of being
a no-op. -/
theorem claim_C8_absent_attribute_amended (cbs : Callbacks)
    (status song : ObservedDict) :
    (dictGet? status.entries "state" = none →
        emit_state cbs status = .error "KeyError: state")
    ∧ (dictGet? status.entries "elapsed" = none →
        emit_elapsed cbs status = .error "KeyError: elapsed")
    ∧ (dictGet? status.entries "volume" = none →
        emit_volume cbs status = .error "KeyError: volume")
    ∧ (dictGet? status.entries "repeat" = none →
        emit_random_repeat cbs status = .error "KeyError: repeat")
    ∧ (dictGet? status.entries "single" = none →
        emit_single cbs status = .error "KeyError: single")
    ∧ (∀ p ∈ song.entries.filter (fun p => songKeys.contains p.1),
        dictHasKey song.entries p.1 = true) := by
  refine ⟨?_, ?_, ?_, ?_, ?_, ?_⟩
  · intro h
    unfold emit_state
    rw [h]
  · intro h
    unfold emit_elapsed
    rw [h]
  · intro h
    unfold emit_volume
    rw [h]
  · intro h
    unfold emit_random_repeat
    rw [h]
  · intro h
    unfold emit_single
    rw [h]
  · intro p hp
    rw [List.mem_filter] at hp
    unfold dictHasKey
    rw [List.any_eq_true]
    exact ⟨p, hp.1, by simp⟩

theorem claim_C8_witness :
    (emit_state allCallbacks ObservedDict.empty = .error "KeyError: state")
    ∧ (emit_elapsed allCallbacks ObservedDict.empty
        = .error "KeyError: elapsed")
    ∧ (emit_random_repeat allCallbacks ObservedDict.empty
        = .error "KeyError: repeat") :=
  ⟨(claim_C8_absent_attribute_amended allCallbacks ObservedDict.empty
      ObservedDict.empty).1 rfl,
   (claim_C8_absent_attribute_amended allCallbacks ObservedDict.empty
      ObservedDict.empty).2.1 rfl,
   (claim_C8_absent_attribute_amended allCallbacks ObservedDict.empty
      ObservedDict.empty).2.2.2.1 rfl⟩

/-! ### Claim C5: the watcher loop -/

theorem watchIter_length (idleRes : Nat → Except Unit (List String)) (n : Nat) :
    (watchIter idleRes n).length = 4 := by
  unfold watchIter
  cases h : idleRes n <;> simp [h]

theorem watchIter_take_one (idleRes : Nat → Except Unit (List String))
    (n : Nat) :
    (watchIter idleRes n).take 1 = [WatchAct.refreshPass] := by
  unfold watchIter
  cases h : idleRes n <;> rfl

theorem watchTrace_length (idleRes : Nat → Except Unit (List String)) :
    ∀ n, (watchTrace idleRes n).length = 4 * n := by
  intro n
  induction n with
  | zero => rfl
  | succ n ih =>
    show (watchTrace idleRes n ++ watchIter idleRes n).length = 4 * (n + 1)
    rw [List.length_append, ih, watchIter_length]
    omega

theorem watchTrace_extend (idleRes : Nat → Except Unit (List String)) :
    ∀ n m, m < n →
    ∃ t, watchTrace idleRes n = watchTrace idleRes m ++ t
      ∧ t.take 1 = [WatchAct.refreshPass] := by
  intro n
  induction n with
  | zero =>
    intro m hm
    exact absurd hm (Nat.not_lt_zero m)
  | succ n ih =>
    intro m hm
    rcases Nat.lt_succ_iff_lt_or_eq.mp hm with h | h
    · obtain ⟨t, ht, hh⟩ := ih m h
      refine ⟨t ++ watchIter idleRes n, ?_, ?_⟩
      · show watchTrace idleRes n ++ watchIter idleRes n = _
        rw [ht, List.append_assoc]
      · cases t with
        | nil => simp at hh
        | cons a t' =>
          have ha : a = WatchAct.refreshPass := by
            simpa using hh
          simp [ha]
    · subst h
      exact ⟨watchIter idleRes m, rfl, watchIter_take_one idleRes m⟩

theorem watchTrace_take_two (idleRes : Nat → Except Unit (List String)) :
    ∀ n, 0 < n → (watchTrace idleRes n).take 2
      = [WatchAct.refreshPass, WatchAct.acquirePool] := by
  intro n
  induction n with
  | zero =>
    intro h
    exact absurd h (by omega)
  | succ m ih =>
    intro _
    show (watchTrace idleRes m ++ watchIter idleRes m).take 2 = _
    cases m with
    | zero =>
      rw [show watchTrace idleRes 0 = [] from rfl, List.nil_append]
      unfold watchIter
      cases h : idleRes 0 <;> rfl
    | succ m' =>
      rw [List.take_append_of_le_length
        (by rw [watchTrace_length]; omega)]
      exact ih (Nat.succ_pos m')

/-- C5: in every run of the watcher, a full REFRESHING pass is the very
first action, before the first blocking `idle()` wait; the trace has exactly
four actions per iteration no matter how often `idle()` raises (the loop
never exits and the error never propagates); and after an iteration whose
wait raised, the connection is still dropped and the very next action is
another REFRESHING pass. -/
theorem claim_C5_watch_loop (idleRes : Nat → Except Unit (List String))
    (n k : Nat) (hn : 0 < n) (hk : k + 1 < n)
    (herr : idleRes k = .error ()) :
    ((watchTrace idleRes n).take 2 = [WatchAct.refreshPass, WatchAct.acquirePool])
    ∧ (watchTrace idleRes n).length = 4 * n
    ∧ ((watchTrace idleRes n).drop (4 * k + 2)).take 3
        = [WatchAct.idleErr, WatchAct.dropPool, WatchAct.refreshPass] := by
  refine ⟨watchTrace_take_two idleRes n hn, watchTrace_length idleRes n, ?_⟩
  obtain ⟨t, ht, hh⟩ := watchTrace_extend idleRes n (k + 1) hk
  rw [ht]
  show (((watchTrace idleRes k ++ watchIter idleRes k) ++ t).drop
      (4 * k + 2)).take 3 = _
  rw [List.append_assoc]
  have hlen : 4 * k + 2 = (watchTrace idleRes k).length + 2 := by
    rw [watchTrace_length]
  rw [hlen, List.drop_append]
  unfold watchIter
  rw [herr]
  show (WatchAct.idleErr :: WatchAct.dropPool :: t).take 3 = _
  show WatchAct.idleErr :: WatchAct.dropPool :: t.take 1 = _
  rw [hh]

theorem claim_C5_witness :
    (((watchTrace (fun _ => Except.error ()) 2).take 2
        = [WatchAct.refreshPass, WatchAct.acquirePool])
    ∧ (watchTrace (fun _ => Except.error ()) 2).length = 4 * 2
    ∧ ((watchTrace (fun _ => Except.error ()) 2).drop (4 * 0 + 2)).take 3
        = [WatchAct.idleErr, WatchAct.dropPool, WatchAct.refreshPass]) :=
  claim_C5_watch_loop (fun _ => Except.error ()) 2 0 (by decide) (by decide)
    rfl

end MpdMqttYag
